import Mathlib

/-!
Shallow embedding of the core of road-core/rag-content:
`src/lightspeed_rag_content/metadata_processor.py`,
`src/lightspeed_rag_content/document_processor.py` and
`scripts/common_embeddings.py`.

Python strings are modelled as Lean `String` (with `List Char` for the
character-level operations), file/network effects as explicit parameters
(the content a read would return, the HTTP response a GET would return),
and logging as an explicit list of emitted entries.
-/

set_option autoImplicit false

namespace RagContent

/-- Python `str.isspace()` for the ASCII whitespace characters it recognises
(space, tab, newline, carriage return, vertical tab, form feed). -/
def pyIsSpace (c : Char) : Bool :=
  c = ' ' || c = '\t' || c = '\n' || c = '\r' || c = '\x0b' || c = '\x0c'

/-- Python `str.lstrip(strip)`: drop from the left every character that
occurs in `strip`. -/
def pyLstrip (strip : List Char) (s : List Char) : List Char :=
  s.dropWhile (fun c => strip.contains c)

/-- Python `str.rstrip(strip)`: drop from the right every character that
occurs in `strip`. -/
def pyRstrip (strip : List Char) (s : List Char) : List Char :=
  (s.reverse.dropWhile (fun c => strip.contains c)).reverse

/-- Python `file.readline()` on the file content: the first line including
its terminating newline, or the whole content if it has no newline. -/
def readline : List Char → List Char
  | [] => []
  | c :: rest => if c = '\n' then [c] else c :: readline rest

/-- Embeds `MetadataProcessor.get_file_title` (metadata_processor.py lines
34-42) and the identical module-level `get_file_title` of
common_embeddings.py (lines 32-40).  The argument is the outcome of opening
and reading the file: `Except.error e` when the read raises, `Except.ok
content` with the file's content otherwise.  The source computes
`file.readline().rstrip("\n").lstrip("# ")` and returns `""` when any
exception is raised. -/
def get_file_title (readResult : Except String String) : String :=
  match readResult with
  | .error _ => ""
  | .ok content => ⟨pyLstrip ['#', ' '] (pyRstrip ['\n'] (readline content.data))⟩

/-- Outcome of the `requests.get(url, timeout=30)` call inside `ping_url`:
either a response with a status code, or a raised
`requests.exceptions.RequestException`. -/
inductive HttpResult where
  | status (code : Nat)
  | requestException (msg : String)

/-- Embeds `MetadataProcessor.ping_url` (metadata_processor.py lines 44-50)
and the identical module-level `ping_url` of common_embeddings.py (lines
23-29), applied to the outcome of the HTTP GET: true exactly when the GET
returned status 200, false on any other status and on any request
exception. -/
def ping_url (resp : HttpResult) : Bool :=
  match resp with
  | .status code => code == 200
  | .requestException _ => false

/-- Log level of an entry emitted through the module logger `LOG`. -/
inductive LogLevel where
  | warning
  | debug
deriving DecidableEq, BEq

/-- One emitted log entry: its level and its message after `%`-style
substitution of the `document` mapping. -/
structure LogEntry where
  level : LogLevel
  msg : String

/-- The message of the `LOG.warning` call in `MetadataProcessor.populate`
(metadata_processor.py lines 71-75) after substitution. -/
def warningMsg (url title file_path : String) : String :=
  "URL not reachable: " ++ url ++ " (Title: \"" ++ title ++ "\", File path: " ++
    file_path ++ ")"

/-- The message of the `LOG.debug` call in `MetadataProcessor.populate`
(metadata_processor.py lines 77-81) after substitution. -/
def debugMsg (title url file_path : String) : String :=
  "Metadata populated for: \"" ++ title ++ "\" (URL: " ++ url ++ ", File path: " ++
    file_path ++ ")"

/-- Environment a metadata processor runs against: the URL derived from a
file path by the concrete subclass's `url_function`, the outcome of reading
each file, and the HTTP response each URL would produce. -/
structure MetadataEnv where
  url_function : String → String
  readFile : String → Except String String
  httpResponse : String → HttpResult

/-- Embeds `MetadataProcessor.populate` (metadata_processor.py lines 52-83).
Returns the metadata mapping handed back to the document loader (as an
ordered key-value list) together with the list of log entries emitted, in
emission order: the warning happens only when `ping_url` is false, the
debug entry is emitted on every call, after the warning. -/
def populate (env : MetadataEnv) (file_path : String) :
    List (String × String) × List LogEntry :=
  let docs_url := env.url_function file_path
  let title := get_file_title (env.readFile file_path)
  let warnLog : List LogEntry :=
    if ping_url (env.httpResponse docs_url) then []
    else [⟨LogLevel.warning, warningMsg docs_url title file_path⟩]
  ([("docs_url", docs_url), ("title", title)],
   warnLog ++ [⟨LogLevel.debug, debugMsg title docs_url file_path⟩])

/-- Value stored in a `processed_urls` record of
`FileMetadataProcessor` (common_embeddings.py): a string or a bool. -/
inductive RecVal where
  | str (s : String)
  | bool (b : Bool)
deriving DecidableEq, BEq

/-- Python `d[k] = v` on a dict that already holds key `k`: the value is
replaced in place, insertion order of keys unchanged. -/
def setKey (d : List (String × RecVal)) (k : String) (v : RecVal) :
    List (String × RecVal) :=
  d.map (fun kv => if kv.1 == k then (kv.1, v) else kv)

/-- The `document` dict appended by
`FileMetadataProcessor.file_metadata_func` (common_embeddings.py lines
77-85): built with keys `file_path`, `title`, `docs_url`, `unreachable`
(initially `False`), then `document["unreachable"] = True` when `ping_url`
is false. -/
def file_metadata_document (env : MetadataEnv) (file_path : String) :
    List (String × RecVal) :=
  let docs_url := env.url_function file_path
  let title := get_file_title (env.readFile file_path)
  let document : List (String × RecVal) :=
    [("file_path", .str file_path), ("title", .str title),
     ("docs_url", .str docs_url), ("unreachable", .bool false)]
  if ping_url (env.httpResponse docs_url) then document
  else setKey document "unreachable" (.bool true)

/-- Embeds `FileMetadataProcessor.file_metadata_func` (common_embeddings.py
lines 65-89).  The state is the `processed_urls` list; the call appends the
`document` record to it and returns the new state together with the
returned mapping `{docs_url, title}`. -/
def file_metadata_func (env : MetadataEnv)
    (processed_urls : List (List (String × RecVal))) (file_path : String) :
    List (List (String × RecVal)) × List (String × String) :=
  (processed_urls ++ [file_metadata_document env file_path],
   [("docs_url", env.url_function file_path),
    ("title", get_file_title (env.readFile file_path))])

/-- Embeds `FileMetadataProcessor.n_unreachable_urls` (common_embeddings.py
lines 60-63): the number of `processed_urls` entries whose `unreachable`
value is truthy. -/
def n_unreachable_urls (processed_urls : List (List (String × RecVal))) : Nat :=
  (processed_urls.filter (fun e =>
    match List.lookup "unreachable" e with
    | some (RecVal.bool b) => b
    | _ => false)).length

/-- A node produced by the text splitter: either a llama-index `TextNode`
with its text and metadata, or a node of any other subtype (image,
structural placeholder, ...) with its payload. -/
inductive Node where
  | text (text : String) (metadata : List (String × String))
  | nonText (content : String)
deriving DecidableEq

/-- Embeds `DocumentProcessor._got_whitespace` (document_processor.py lines
123-128) and the identical `got_whitespace` of common_embeddings.py (lines
145-150): iterate the characters, return true at the first whitespace
character, false if none is found. -/
def got_whitespace : List Char → Bool
  | [] => false
  | c :: rest => if pyIsSpace c then true else got_whitespace rest

/-- Validity test applied to each node by the filter (document_processor.py
line 134): `isinstance(node, TextNode) and self._got_whitespace(node.text)`. -/
def isValidNode (n : Node) : Bool :=
  match n with
  | .text t _ => got_whitespace t.data
  | .nonText _ => false

/-- Embeds `DocumentProcessor._filter_out_invalid_nodes`
(document_processor.py lines 130-139) and the identical
`filter_out_invalid_nodes` of common_embeddings.py: keep a node when it is
a `TextNode` whose text has whitespace, drop (and debug-log) it otherwise. -/
def filter_out_invalid_nodes : List Node → List Node
  | [] => []
  | node :: rest =>
    match node with
    | Node.text t m =>
      if got_whitespace t.data then Node.text t m :: filter_out_invalid_nodes rest
      else filter_out_invalid_nodes rest
    | Node.nonText _ => filter_out_invalid_nodes rest

/-- A raw document returned by the `SimpleDirectoryReader` loader. -/
structure Document where
  text : String
  metadata : List (String × String)

/-- The mutable session state of a `DocumentProcessor`: `self._good_nodes`
and `self._num_embedded_files` (document_processor.py lines 68-71). -/
structure DPState where
  good_nodes : List Node
  num_embedded_files : Nat
deriving DecidableEq

/-- Session state right after `__init__`: empty node list, zero embedded
files (document_processor.py lines 69-71). -/
def initState : DPState := ⟨[], 0⟩

/-- Embeds `DocumentProcessor.process` (document_processor.py lines
168-190).  The external loader and splitter are parameters: `docs` is what
`reader.load_data` returns for the call and `split` is the
`text_splitter.get_nodes_from_documents` function.  The surviving nodes are
appended to `good_nodes` and the embedded-file counter grows by the number
of loaded documents. -/
def process (split : List Document → List Node) (st : DPState)
    (docs : List Document) : DPState :=
  let nodes := split docs
  { good_nodes := st.good_nodes ++ filter_out_invalid_nodes nodes,
    num_embedded_files := st.num_embedded_files + docs.length }

/-- A value of the JSON metadata sidecar: string or number. -/
inductive MetaVal where
  | str (s : String)
  | num (n : Nat)
deriving DecidableEq

/-- Constructor arguments of a `DocumentProcessor` that the sidecar and the
backend resolver read (document_processor.py lines 46-63). -/
structure ProcessorConfig where
  chunk_size : Nat
  chunk_overlap : Nat
  model_name : String
  vector_store_type : String

/-- Embeds the dict built by `DocumentProcessor._save_metadata`
(document_processor.py lines 150-166), in insertion order; `exec_time` is
the measured `time.time() - self._start_time` and `dim` the embedding
dimension probed at configuration time. -/
def save_metadata_dict (cfg : ProcessorConfig) (index : String)
    (exec_time dim num_embedded_files : Nat) : List (String × MetaVal) :=
  [("execution-time", .num exec_time), ("llm", .str "None"),
   ("embedding-model", .str cfg.model_name), ("index-id", .str index)] ++
  (if cfg.vector_store_type = "faiss" then [("vector-db", .str "faiss.IndexFlatIP")]
   else if cfg.vector_store_type = "postgres" then [("vector-db", .str "PGVectorStore")]
   else []) ++
  [("embedding-dimension", .num dim), ("chunk", .num cfg.chunk_size),
   ("overlap", .num cfg.chunk_overlap),
   ("total-embedded-files", .num num_embedded_files)]

/-- The persisted vector store index artifact produced by
`DocumentProcessor._save_index` (document_processor.py lines 141-148): the
`VectorStoreIndex` is built from `self._good_nodes` and tagged with the
index id. -/
structure IndexArtifact where
  nodes : List Node
  index_id : String
deriving DecidableEq

/-- The pair of artifacts written by `DocumentProcessor.save`
(document_processor.py lines 192-195): the index built from the accumulated
good nodes, and the metadata sidecar dict. -/
def save_pure (cfg : ProcessorConfig) (st : DPState) (index : String)
    (exec_time dim : Nat) : IndexArtifact × List (String × MetaVal) :=
  (⟨st.good_nodes, index⟩,
   save_metadata_dict cfg index exec_time dim st.num_embedded_files)

/-- The vector store handle built by `DocumentProcessor._get_settings`
(document_processor.py lines 95-117): a faiss flat inner-product index of
the probed dimension, or a postgres store from environment parameters and
the caller's table name. -/
inductive VectorStore where
  | faiss (dim : Nat)
  | postgres (user password host port database : Option String)
      (table_name : String) (dim : Nat)

/-- A `StorageContext.from_defaults(vector_store=...)` handle
(document_processor.py line 119). -/
structure StorageContext where
  vector_store : VectorStore

/-- The `DocumentSettings` named tuple (document_processor.py lines 38-40),
without the opaque global `Settings` member. -/
structure DocumentSettings where
  embedding_dimension : Nat
  storage_context : StorageContext

/-- Embeds `DocumentProcessor._get_settings` (document_processor.py lines
80-121).  `env` is the process environment read through `os.getenv`, `dim`
the embedding dimension probed from the model.  An unknown
`vector_store_type` raises `RuntimeError` before any storage context is
built. -/
def get_settings (vector_store_type table_name : String)
    (env : String → Option String) (dim : Nat) : Except String DocumentSettings :=
  if vector_store_type = "faiss" then
    .ok ⟨dim, ⟨VectorStore.faiss dim⟩⟩
  else if vector_store_type = "postgres" then
    .ok ⟨dim, ⟨VectorStore.postgres (env "POSTGRES_USER") (env "POSTGRES_PASSWORD")
      (env "POSTGRES_HOST") (env "POSTGRES_PORT") (env "POSTGRES_DATABASE")
      table_name dim⟩⟩
  else
    .error ("Unknown vector store type: " ++ vector_store_type)

/-- A fully constructed `DocumentProcessor`: its session state and the
settings resolved at construction time. -/
structure DPSession where
  state : DPState
  settings : DocumentSettings

/-- Embeds `DocumentProcessor.__init__` (document_processor.py lines
46-78): the session state is initialised and `_get_settings` is invoked
exactly once; a `RuntimeError` raised there propagates and no processor
instance exists. -/
def document_processor_init (cfg : ProcessorConfig) (table_name : String)
    (env : String → Option String) (dim : Nat) : Except String DPSession :=
  match get_settings cfg.vector_store_type table_name env dim with
  | .error e => .error e
  | .ok s => .ok ⟨initState, s⟩

/-- Observable filesystem effects of `DocumentProcessor.save`: the index
artifact persisted to the output directory, and the metadata sidecar
written to `output_dir/metadata.json`. -/
inductive SaveEvent where
  | indexPersisted (nodes : List Node) (index_id dir : String)
  | metadataWritten (dir : String) (content : List (String × MetaVal))
deriving DecidableEq

/-- One run of `DocumentProcessor._save_index` (document_processor.py lines
141-148) as a trace step: on success it appends the persisted-index event,
on a raise it leaves the trace unchanged and propagates the error. -/
def run_save_index (st : DPState) (index dir : String) (raises : Bool)
    (tr : List SaveEvent) : List SaveEvent × Except String Unit :=
  if raises then (tr, .error "index persistence raised")
  else (tr ++ [SaveEvent.indexPersisted st.good_nodes index dir], .ok ())

/-- One run of `DocumentProcessor._save_metadata` as a trace step: on
success it appends the metadata-written event, on a raise it leaves the
trace unchanged and propagates the error. -/
def run_save_metadata (dict : List (String × MetaVal)) (dir : String)
    (raises : Bool) (tr : List SaveEvent) : List SaveEvent × Except String Unit :=
  if raises then (tr, .error "metadata write raised")
  else (tr ++ [SaveEvent.metadataWritten dir dict], .ok ())

/-- Embeds `DocumentProcessor.save` (document_processor.py lines 192-195):
`self._save_index(index, output_dir)` runs first and, only if it returns,
`self._save_metadata(index, output_dir)` runs second; a raise in either
stops the call there. -/
def save_effect (st : DPState) (index dir : String)
    (dict : List (String × MetaVal)) (indexRaises metaRaises : Bool) :
    List SaveEvent × Except String Unit :=
  match run_save_index st index dir indexRaises [] with
  | (tr, Except.error e) => (tr, Except.error e)
  | (tr, Except.ok _) => run_save_metadata dict dir metaRaises tr

/-- Substring containment on strings, at the character-list level: `pat`
occurs contiguously somewhere in `s`. -/
def StrContainsSub (s pat : String) : Prop :=
  ∃ a b : List Char, s.data = a ++ (pat.data ++ b)

/-- A concrete metadata environment whose HTTP GET raises a
`requests.exceptions.RequestException` for every URL (an unreachable
documentation site). -/
def envDown : MetadataEnv where
  url_function := fun _ => "https://docs.example.com/page"
  readFile := fun _ => .ok "# Some Title\nbody text"
  httpResponse := fun _ => .requestException "connection refused"

theorem data_append (a b : String) : (a ++ b).data = a.data ++ b.data := rfl

theorem readline_no_newline {l : List Char} (h : '\n' ∉ l) : readline l = l := by
  induction l with
  | nil => rfl
  | cons c rest ih =>
    have hc : c ≠ '\n' := fun hc => h (hc ▸ List.mem_cons_self c rest)
    simp only [readline, if_neg hc]
    exact congrArg (c :: ·) (ih (fun hm => h (List.mem_cons_of_mem c hm)))

theorem readline_append_newline {l : List Char} (t : List Char) (h : '\n' ∉ l) :
    readline (l ++ '\n' :: t) = l ++ ['\n'] := by
  induction l with
  | nil => simp [readline]
  | cons c rest ih =>
    have hc : c ≠ '\n' := fun hc => h (hc ▸ List.mem_cons_self c rest)
    simp only [List.cons_append, readline, if_neg hc]
    exact congrArg (c :: ·) (ih (fun hm => h (List.mem_cons_of_mem c hm)))

theorem dropWhile_eq_self {p : Char → Bool} {l : List Char}
    (h : ∀ c ∈ l, p c = false) : l.dropWhile p = l := by
  cases l with
  | nil => rfl
  | cons c rest => simp [List.dropWhile, h c (List.mem_cons_self c rest)]

theorem dropWhile_append_of_all {p : Char → Bool} {l1 : List Char}
    (l2 : List Char) (h : ∀ c ∈ l1, p c = true) :
    (l1 ++ l2).dropWhile p = l2.dropWhile p := by
  induction l1 with
  | nil => rfl
  | cons c rest ih =>
    simp only [List.cons_append, List.dropWhile, h c (List.mem_cons_self c rest)]
    exact ih (fun x hx => h x (List.mem_cons_of_mem c hx))

theorem pyRstrip_newline_of_not_mem {l : List Char} (h : '\n' ∉ l) :
    pyRstrip ['\n'] (l ++ ['\n']) = l := by
  have hrev : ∀ c ∈ l.reverse, (['\n'].contains c) = false := by
    intro c hc
    have : c ≠ '\n' := fun he => h (he ▸ List.mem_reverse.mp hc)
    simp [List.contains, this, Ne.symm this]
  simp only [pyRstrip, List.reverse_append, List.reverse_cons, List.reverse_nil,
    List.nil_append, List.singleton_append]
  have hnl : (['\n'].contains '\n') = true := by decide
  simp only [List.dropWhile, hnl, dropWhile_eq_self hrev, List.reverse_reverse]

theorem pyRstrip_of_not_mem {l : List Char} (h : '\n' ∉ l) :
    pyRstrip ['\n'] l = l := by
  have hrev : ∀ c ∈ l.reverse, (['\n'].contains c) = false := by
    intro c hc
    have : c ≠ '\n' := fun he => h (he ▸ List.mem_reverse.mp hc)
    simp [List.contains, this, Ne.symm this]
  simp only [pyRstrip, dropWhile_eq_self hrev, List.reverse_reverse]

theorem pyLstrip_hash_space {pre rest : List Char}
    (hpre : ∀ c ∈ pre, c = '#' ∨ c = ' ')
    (hhd : ∀ c, rest.head? = some c → c ≠ '#' ∧ c ≠ ' ') :
    pyLstrip ['#', ' '] (pre ++ rest) = rest := by
  have hall : ∀ c ∈ pre, ((['#', ' '].contains c) = true) := by
    intro c hc
    rcases hpre c hc with h | h <;> subst h <;> decide
  have hstep : (pre ++ rest).dropWhile (fun c => ['#', ' '].contains c) =
      rest.dropWhile (fun c => ['#', ' '].contains c) :=
    dropWhile_append_of_all rest hall
  have hrest : rest.dropWhile (fun c => ['#', ' '].contains c) = rest := by
    cases rest with
    | nil => rfl
    | cons c tl =>
      rcases hhd c rfl with ⟨h1, h2⟩
      have hb : (['#', ' '].contains c) = false := by
        simp [List.contains, h1, h2, Ne.symm h1, Ne.symm h2]
      rw [List.dropWhile_cons, hb]
      simp
  show (pre ++ rest).dropWhile (fun c => ['#', ' '].contains c) = rest
  rw [hstep]
  exact hrest

theorem got_whitespace_eq_any (l : List Char) :
    got_whitespace l = l.any pyIsSpace := by
  induction l with
  | nil => rfl
  | cons c rest ih =>
    by_cases h : pyIsSpace c <;> simp [got_whitespace, h, ih]

theorem filter_out_invalid_nodes_eq_filter (ns : List Node) :
    filter_out_invalid_nodes ns = ns.filter isValidNode := by
  induction ns with
  | nil => rfl
  | cons n rest ih =>
    cases n with
    | text t m =>
      by_cases h : got_whitespace t.data <;>
        simp [filter_out_invalid_nodes, List.filter_cons, isValidNode, h, ih]
    | nonText c =>
      simp [filter_out_invalid_nodes, List.filter_cons, isValidNode, ih]

theorem setKey_keys (d : List (String × RecVal)) (k : String) (v : RecVal) :
    (setKey d k v).map Prod.fst = d.map Prod.fst := by
  induction d with
  | nil => rfl
  | cons kv rest ih =>
    have hfst : (if kv.1 == k then (kv.1, v) else kv).1 = kv.1 := by
      by_cases h : kv.1 == k <;> simp [h]
    calc ((setKey (kv :: rest) k v).map Prod.fst)
        = (if kv.1 == k then (kv.1, v) else kv).1 ::
            (setKey rest k v).map Prod.fst := by simp [setKey]
      _ = kv.1 :: rest.map Prod.fst := by rw [hfst, ih]
      _ = (kv :: rest).map Prod.fst := by simp

theorem lookup_total_embedded_files (cfg : ProcessorConfig) (index : String)
    (exec_time dim n : Nat) :
    List.lookup "total-embedded-files"
      (save_metadata_dict cfg index exec_time dim n) = some (MetaVal.num n) := by
  by_cases h1 : cfg.vector_store_type = "faiss"
  · simp [save_metadata_dict, h1, List.lookup]
  · by_cases h2 : cfg.vector_store_type = "postgres" <;>
      simp [save_metadata_dict, h1, h2, List.lookup]

theorem warningMsg_contains (url title file_path : String) :
    StrContainsSub (warningMsg url title file_path) "URL not reachable" := by
  refine ⟨[], (": " ++ url ++ " (Title: \"" ++ title ++ "\", File path: " ++
    file_path ++ ")").data, ?_⟩
  show (warningMsg url title file_path).data = _
  simp only [warningMsg, data_append, List.nil_append, List.append_assoc]
  have hsplit : (['U', 'R', 'L', ' ', 'n', 'o', 't', ' ', 'r', 'e', 'a', 'c',
      'h', 'a', 'b', 'l', 'e', ':', ' '] : List Char) =
      ['U', 'R', 'L', ' ', 'n', 'o', 't', ' ', 'r', 'e', 'a', 'c', 'h', 'a',
       'b', 'l', 'e'] ++ [':', ' '] := by decide
  rw [hsplit, List.append_assoc]

theorem unknown_backend_msg_contains (t : String) :
    StrContainsSub ("Unknown vector store type: " ++ t) t := by
  exact ⟨("Unknown vector store type: " : String).data, [],
    by simp [data_append]⟩

/-- C1: the node validator returns exactly the order-preserving subsequence
of the input consisting of the `TextNode`s whose text contains a whitespace
character, mutating no node; a text node with text "hello world" is
accepted, one with text "helloworld" is rejected, and a non-text node is
rejected regardless of its content. -/
theorem C1_node_validator_filter (ns : List Node) :
    filter_out_invalid_nodes ns = ns.filter isValidNode ∧
    (filter_out_invalid_nodes ns).Sublist ns ∧
    (∀ t m, isValidNode (Node.text t m) = t.data.any pyIsSpace) ∧
    isValidNode (Node.text "hello world" []) = true ∧
    isValidNode (Node.text "helloworld" []) = false ∧
    (∀ c, isValidNode (Node.nonText c) = false) := by
  refine ⟨filter_out_invalid_nodes_eq_filter ns, ?_, ?_, by decide, by decide,
    fun c => rfl⟩
  · rw [filter_out_invalid_nodes_eq_filter]
    exact List.filter_sublist ns
  · intro t m
    simp [isValidNode, got_whitespace_eq_any]

/-- C2: after two `process` calls followed by one `save`, the index is
built from the first call's surviving nodes followed by the second call's
(N1 + N2 nodes in call order), and the sidecar's total-embedded-files value
is the sum of the numbers of documents loaded in the two calls. -/
theorem C2_process_twice_then_save (split : List Document → List Node)
    (docs1 docs2 : List Document) (cfg : ProcessorConfig) (index : String)
    (exec_time dim : Nat) :
    (save_pure cfg (process split (process split initState docs1) docs2)
        index exec_time dim).1.nodes =
      filter_out_invalid_nodes (split docs1) ++
        filter_out_invalid_nodes (split docs2) ∧
    (save_pure cfg (process split (process split initState docs1) docs2)
        index exec_time dim).1.nodes.length =
      (filter_out_invalid_nodes (split docs1)).length +
        (filter_out_invalid_nodes (split docs2)).length ∧
    List.lookup "total-embedded-files"
        (save_pure cfg (process split (process split initState docs1) docs2)
          index exec_time dim).2 =
      some (MetaVal.num (docs1.length + docs2.length)) := by
  refine ⟨?_, ?_, ?_⟩
  · simp [process, initState, save_pure]
  · simp [process, initState, save_pure]
  · simp only [process, initState, save_pure, Nat.zero_add]
    exact lookup_total_embedded_files cfg index exec_time dim _

/-- C6: `save` persists the index first and writes the metadata sidecar
second; when index persistence raises, nothing (in particular no
metadata.json) has been written by the call, and when the sidecar write
raises, the index has already been persisted. -/
theorem C6_save_write_ordering (st : DPState) (index dir : String)
    (dict : List (String × MetaVal)) (metaRaises : Bool) :
    (save_effect st index dir dict true metaRaises).1 = [] ∧
    (save_effect st index dir dict false true).1 =
      [SaveEvent.indexPersisted st.good_nodes index dir] ∧
    (save_effect st index dir dict false false).1 =
      [SaveEvent.indexPersisted st.good_nodes index dir,
       SaveEvent.metadataWritten dir dict] ∧
    SaveEvent.metadataWritten dir dict ∉
      (save_effect st index dir dict true metaRaises).1 := by
  refine ⟨rfl, rfl, rfl, ?_⟩
  show SaveEvent.metadataWritten dir dict ∉ ([] : List SaveEvent)
  simp

/-- C8: when reading the file raises any exception, `get_file_title`
returns the empty string instead of propagating it. -/
theorem C8_get_file_title_swallows_errors (e : String) :
    get_file_title (Except.error e) = "" := rfl

/-- C9: `populate` always returns the mapping with exactly the keys
docs_url and title, in that order, whatever the reachability outcome; the
reachability flag is not part of the returned metadata. -/
theorem C9_populate_returns_exactly_two_keys (env : MetadataEnv) (fp : String) :
    (populate env fp).1 =
      [("docs_url", env.url_function fp),
       ("title", get_file_title (env.readFile fp))] ∧
    (populate env fp).1.map Prod.fst = ["docs_url", "title"] :=
  ⟨rfl, by simp [populate]⟩

/-- C5: resolving any backend type other than faiss and postgres raises a
configuration error whose message names the unknown backend; construction
fails with the same error, so no session (and hence no storage handle or
index) exists. -/
theorem C5_unknown_backend_fails (cfg : ProcessorConfig) (table_name : String)
    (env : String → Option String) (dim : Nat)
    (h1 : cfg.vector_store_type ≠ "faiss")
    (h2 : cfg.vector_store_type ≠ "postgres") :
    get_settings cfg.vector_store_type table_name env dim =
      .error ("Unknown vector store type: " ++ cfg.vector_store_type) ∧
    document_processor_init cfg table_name env dim =
      .error ("Unknown vector store type: " ++ cfg.vector_store_type) ∧
    StrContainsSub ("Unknown vector store type: " ++ cfg.vector_store_type)
      cfg.vector_store_type ∧
    ∀ s, document_processor_init cfg table_name env dim ≠ .ok s := by
  have hg : get_settings cfg.vector_store_type table_name env dim =
      .error ("Unknown vector store type: " ++ cfg.vector_store_type) := by
    simp [get_settings, h1, h2]
  refine ⟨hg, ?_, unknown_backend_msg_contains _, ?_⟩
  · simp [document_processor_init, hg]
  · intro s hs
    simp [document_processor_init, hg] at hs

/-- C5 witness: the backend type "nonexisting" is neither faiss nor
postgres, and constructing a processor with it fails with the error that
names it. -/
theorem C5_unknown_backend_fails_witness :
    (("nonexisting" : String) ≠ "faiss" ∧ ("nonexisting" : String) ≠ "postgres") ∧
    (get_settings "nonexisting" "table_name" (fun _ => none) 768 =
      .error ("Unknown vector store type: " ++ "nonexisting") ∧
    document_processor_init ⟨380, 0, "model", "nonexisting"⟩ "table_name"
        (fun _ => none) 768 =
      .error ("Unknown vector store type: " ++ "nonexisting") ∧
    StrContainsSub ("Unknown vector store type: " ++ "nonexisting") "nonexisting" ∧
    ∀ s, document_processor_init ⟨380, 0, "model", "nonexisting"⟩ "table_name"
        (fun _ => none) 768 ≠ .ok s) :=
  ⟨⟨by decide, by decide⟩,
   C5_unknown_backend_fails ⟨380, 0, "model", "nonexisting"⟩ "table_name"
     (fun _ => none) 768 (by decide) (by decide)⟩

/-- C7: a file whose first line is a single hash marker, one separating
space, then the title, ended by a newline, yields exactly the title:
marker, separating space and trailing newline stripped. -/
theorem C7_get_file_title_single_marker (title rest : List Char)
    (h1 : '\n' ∉ title)
    (h2 : ∀ c, title.head? = some c → c ≠ '#' ∧ c ≠ ' ') :
    get_file_title (Except.ok ⟨'#' :: ' ' :: (title ++ '\n' :: rest)⟩) =
      ⟨title⟩ := by
  have hnotin : '\n' ∉ ('#' :: ' ' :: title) := by
    intro hmem
    simp only [List.mem_cons] at hmem
    rcases hmem with h | h | h
    · exact absurd h (by decide)
    · exact absurd h (by decide)
    · exact h1 h
  have hline : readline ('#' :: ' ' :: (title ++ '\n' :: rest)) =
      ('#' :: ' ' :: title) ++ ['\n'] := by
    have h := readline_append_newline (l := '#' :: ' ' :: title) rest hnotin
    simpa using h
  have hpre : ∀ c ∈ (['#', ' '] : List Char), c = '#' ∨ c = ' ' := by decide
  show (⟨pyLstrip ['#', ' '] (pyRstrip ['\n']
    (readline ('#' :: ' ' :: (title ++ '\n' :: rest))))⟩ : String) = ⟨title⟩
  rw [hline, pyRstrip_newline_of_not_mem hnotin]
  exact congrArg (fun l => (⟨l⟩ : String)) (pyLstrip_hash_space hpre h2)

/-- C7 witness: applied to the file content beginning with the line
"# Title Text" the title comes back as "Title Text". -/
theorem C7_get_file_title_single_marker_witness :
    ('\n' ∉ "Title Text".data) ∧
    get_file_title (Except.ok ⟨'#' :: ' ' :: ("Title Text".data ++
      '\n' :: "body".data)⟩) = ⟨"Title Text".data⟩ :=
  ⟨by decide,
   C7_get_file_title_single_marker "Title Text".data "body".data (by decide)
     (by
       intro c hc
       have h' : some 'T' = some c := hc
       injection h' with he
       subst he
       decide)⟩

/-- C10: `get_file_title` strips the entire leading run of hash and space
characters from the first line, whether that line ends with a newline or at
end of file. -/
theorem C10_get_file_title_strips_leading_run (pre rest tail : List Char)
    (hpre : ∀ c ∈ pre, c = '#' ∨ c = ' ')
    (hnl : '\n' ∉ rest)
    (hhd : ∀ c, rest.head? = some c → c ≠ '#' ∧ c ≠ ' ') :
    get_file_title (Except.ok ⟨pre ++ (rest ++ '\n' :: tail)⟩) = ⟨rest⟩ ∧
    get_file_title (Except.ok ⟨pre ++ rest⟩) = ⟨rest⟩ := by
  have hprenl : '\n' ∉ pre := by
    intro hm
    rcases hpre _ hm with h | h <;> exact absurd h (by decide)
  have hnotin : '\n' ∉ (pre ++ rest) := by
    intro hm
    rcases List.mem_append.mp hm with h | h
    · exact hprenl h
    · exact hnl h
  constructor
  · have hline : readline (pre ++ (rest ++ '\n' :: tail)) =
        (pre ++ rest) ++ ['\n'] := by
      have h := readline_append_newline (l := pre ++ rest) tail hnotin
      simpa [List.append_assoc] using h
    show (⟨pyLstrip ['#', ' '] (pyRstrip ['\n']
      (readline (pre ++ (rest ++ '\n' :: tail))))⟩ : String) = ⟨rest⟩
    rw [hline, pyRstrip_newline_of_not_mem hnotin]
    exact congrArg (fun l => (⟨l⟩ : String)) (pyLstrip_hash_space hpre hhd)
  · show (⟨pyLstrip ['#', ' '] (pyRstrip ['\n']
      (readline (pre ++ rest)))⟩ : String) = ⟨rest⟩
    rw [readline_no_newline hnotin, pyRstrip_of_not_mem hnotin]
    exact congrArg (fun l => (⟨l⟩ : String)) (pyLstrip_hash_space hpre hhd)

/-- C10 witness: the first line "#  # Title" (run of hashes and spaces,
then "Title") yields "Title", with and without a terminating newline; the
concrete first lines "## Title" and "   Title" also yield "Title". -/
theorem C10_get_file_title_strips_leading_run_witness :
    (∀ c ∈ ("#  # " : String).data, c = '#' ∨ c = ' ') ∧
    (get_file_title (Except.ok ⟨"#  # ".data ++ ("Title".data ++
      '\n' :: "body".data)⟩) = ⟨"Title".data⟩ ∧
     get_file_title (Except.ok ⟨"#  # ".data ++ "Title".data⟩) =
      ⟨"Title".data⟩) ∧
    get_file_title (Except.ok "## Title\n") = "Title" ∧
    get_file_title (Except.ok "   Title\n") = "Title" :=
  ⟨by decide,
   C10_get_file_title_strips_leading_run "#  # ".data "Title".data "body".data
     (by decide) (by decide)
     (by
       intro c hc
       have h' : some 'T' = some c := hc
       injection h' with he
       subst he
       decide),
   by decide, by decide⟩

/-- C3 counterexample: at a concrete call, the record appended to
`processed_urls` has exactly the keys file_path, title, docs_url and
unreachable, and therefore not the keys file_path, title, url and
reachable that the claim states. -/
theorem C3_processed_urls_record_counterexample :
    (file_metadata_document envDown "docs/doc.txt").map Prod.fst =
      ["file_path", "title", "docs_url", "unreachable"] ∧
    ¬((file_metadata_document envDown "docs/doc.txt").map Prod.fst =
      ["file_path", "title", "url", "reachable"]) ∧
    (file_metadata_func envDown [] "docs/doc.txt").1 =
      [file_metadata_document envDown "docs/doc.txt"] := by
  refine ⟨by decide, by decide, rfl⟩

/-- C3 amended: every `file_metadata_func` call appends one record with the
keys file_path, title, docs_url and unreachable (the unreachable value
being the negation of the reachability result) to `processed_urls`,
leaving every earlier entry unchanged, and `n_unreachable_urls` counts the
records whose unreachable flag is true. -/
theorem C3_processed_urls_append_only (env : MetadataEnv)
    (st : List (List (String × RecVal))) (fp : String) :
    (file_metadata_func env st fp).1 = st ++ [file_metadata_document env fp] ∧
    (file_metadata_document env fp).map Prod.fst =
      ["file_path", "title", "docs_url", "unreachable"] ∧
    List.lookup "unreachable" (file_metadata_document env fp) =
      some (RecVal.bool (!ping_url (env.httpResponse (env.url_function fp)))) ∧
    n_unreachable_urls (file_metadata_func env st fp).1 =
      n_unreachable_urls st +
        (if ping_url (env.httpResponse (env.url_function fp)) then 0 else 1) := by
  refine ⟨rfl, ?_, ?_, ?_⟩
  · by_cases h : ping_url (env.httpResponse (env.url_function fp)) <;>
      simp [file_metadata_document, h, setKey]
  · by_cases h : ping_url (env.httpResponse (env.url_function fp)) <;>
      simp [file_metadata_document, h, setKey, List.lookup]
  · by_cases h : ping_url (env.httpResponse (env.url_function fp)) <;>
      simp [n_unreachable_urls, file_metadata_func, file_metadata_document, h,
        setKey, List.filter_append, List.lookup]

/-- C4 counterexample: at a concrete call whose URL is unreachable
(`ping_url` false), `populate` still emits a debug-level entry, refuting
the claim that the debug diagnostic is emitted only in the reachable
case. -/
theorem C4_debug_emitted_counterexample :
    ping_url (envDown.httpResponse (envDown.url_function "docs/doc.txt")) =
      false ∧
    ¬(((populate envDown "docs/doc.txt").2.filter
      (fun e => e.level == LogLevel.debug)).length = 0) := by
  refine ⟨rfl, by decide⟩

/-- C4 amended: when the URL is unreachable, exactly one warning-level
entry is emitted and its message contains "URL not reachable"; when it is
reachable, no warning-level entry is emitted; a debug-level entry is
emitted on every call, reachable or not. -/
theorem C4_warning_iff_unreachable (env : MetadataEnv) (fp : String) :
    ((populate env fp).2.filter (fun e => e.level == LogLevel.warning)) =
      (if ping_url (env.httpResponse (env.url_function fp)) then []
       else [⟨LogLevel.warning,
         warningMsg (env.url_function fp) (get_file_title (env.readFile fp))
           fp⟩]) ∧
    ((populate env fp).2.filter (fun e => e.level == LogLevel.debug)) =
      [⟨LogLevel.debug,
        debugMsg (get_file_title (env.readFile fp)) (env.url_function fp)
          fp⟩] ∧
    StrContainsSub
      (warningMsg (env.url_function fp) (get_file_title (env.readFile fp)) fp)
      "URL not reachable" := by
  have e1 : (LogLevel.debug == LogLevel.warning) = false := rfl
  have e2 : (LogLevel.warning == LogLevel.warning) = true := rfl
  have e3 : (LogLevel.debug == LogLevel.debug) = true := rfl
  have e4 : (LogLevel.warning == LogLevel.debug) = false := rfl
  refine ⟨?_, ?_, warningMsg_contains _ _ _⟩ <;>
    by_cases h : ping_url (env.httpResponse (env.url_function fp)) <;>
      simp [populate, h, List.filter, e1, e2, e3, e4]

end RagContent
